import Mathlib

/-!
# Formal model of `alert.py` (gold "kimchi premium" Telegram alert script)

Shallow embedding of the single-file Python program `src/alert.py`.

Modelling conventions:
* Python floats are modelled as exact rationals (`ℚ`);
* Python exceptions are modelled as `Except PyExc` values (an uncaught
  exception aborts the process with a nonzero status);
* the process-level outcome of the `__main__` block is an explicit
  `Outcome` inductive;
* network fetches are external collaborators: their results enter the
  model as `Except`-valued parameters of `runMain`;
* the regular-expression layer (`re.search` with the script's concrete
  patterns) is embedded by a small backtracking engine `reMatch` with
  Python's priority order (alternation left-first, greedy repetition,
  leftmost starting position wins).
-/

namespace Alert

/-- Python exceptions that the script can raise (and never catches):
`ZeroDivisionError` from `/`, `ValueError` from `num_from` / `float`,
and the transport errors raised by `requests` (timeout,
`raise_for_status`). -/
inductive PyExc where
  | zeroDivisionError : PyExc
  | valueError : PyExc
  | requestsError : PyExc
deriving DecidableEq, Repr

/-- Python's float division `a / b`: raises `ZeroDivisionError` when
`b == 0`, otherwise returns the quotient (floats idealised as rationals). -/
def pydiv (a b : ℚ) : Except PyExc ℚ :=
  if b = 0 then .error .zeroDivisionError else .ok (a / b)

/-- Line 7 of alert.py: `OZ_TO_G = 31.1034768`, grams per troy ounce. -/
def OZ_TO_G : ℚ := 311034768 / 10000000

/-- Line 120: `intl_krw_g = intl_usd_oz * usdkrw / OZ_TO_G` (the division
by the nonzero constant `OZ_TO_G` cannot raise). -/
def impliedKrwPerG (intl_usd_oz usdkrw : ℚ) : ℚ :=
  intl_usd_oz * usdkrw / OZ_TO_G

/-- The value computed by line 121 when the reference is nonzero:
`(dom_g - intl_krw_g) / intl_krw_g * 100.0`. -/
def kimchiValue (dom_g intl_krw_g : ℚ) : ℚ :=
  (dom_g - intl_krw_g) / intl_krw_g * 100

/-- Line 121 with Python's `/` made explicit:
`kimchi = (dom_g - intl_krw_g) / intl_krw_g * 100.0` raises
`ZeroDivisionError` when the implied reference price is zero. -/
def kimchiOf (dom_g intl_krw_g : ℚ) : Except PyExc ℚ :=
  match pydiv (dom_g - intl_krw_g) intl_krw_g with
  | .error e => .error e
  | .ok r => .ok (r * 100)

/-- Lines 120–121 combined: the premium computation of the script from
the three fetched values. -/
def kimchiComputation (dom_g intl_usd_oz usdkrw : ℚ) : Except PyExc ℚ :=
  kimchiOf dom_g (impliedKrwPerG intl_usd_oz usdkrw)

/-- Modelled from the spec: the Premium Engine `compute_premium` of
spec §4.4 (no such function exists in `src/alert.py`; the script computes
the premium inline on line 121).  It fails with the typed
`PremiumError::ZeroReference` on a zero reference instead of raising. -/
inductive PremiumError where
  | zeroReference : PremiumError
deriving DecidableEq, Repr

/-- Modelled from the spec: `compute_premium(observed, reference, label)`
returns `(observed - reference) / reference * 100` and fails with
`PremiumError::ZeroReference` if `reference == 0` (spec §4.4). -/
def compute_premium (observed reference : ℚ) : Except PremiumError ℚ :=
  if reference = 0 then .error .zeroReference
  else .ok ((observed - reference) / reference * 100)

/-- Time of day in KST, as Python's `datetime.time` carries it.
Python compares `time` values lexicographically on
(hour, minute, second, microsecond). -/
structure Tod where
  hour : ℕ
  minute : ℕ
  second : ℕ
  microsecond : ℕ
deriving DecidableEq, Repr

/-- Python's `<=` on `datetime.time`: lexicographic comparison of
(hour, minute, second, microsecond). -/
def todLE (a b : Tod) : Bool :=
  if a.hour ≠ b.hour then decide (a.hour < b.hour)
  else if a.minute ≠ b.minute then decide (a.minute < b.minute)
  else if a.second ≠ b.second then decide (a.second < b.second)
  else decide (a.microsecond ≤ b.microsecond)

/-- Lines 15–20 of alert.py: `is_korean_market_hours`.  `weekday` is
Python's `datetime.weekday()` (0 = Monday … 6 = Sunday); the gate is
closed when `weekday >= 5`, and otherwise open iff
`time(9, 0) <= t <= time(15, 30)`. -/
def is_korean_market_hours (weekday : ℕ) (t : Tod) : Bool :=
  if 5 ≤ weekday then false
  else todLE ⟨9, 0, 0, 0⟩ t && todLE t ⟨15, 30, 0, 0⟩

/-- Environment configuration read at the top of `__main__`:
`FORCE_RUN` (line 107), `TEST_MESSAGE` (line 108) and
`KIMCHI_THRESHOLD` (line 114, default 1.5). -/
structure Env where
  forceRun : Bool
  testMessage : Bool
  threshold : ℚ

/-- Process-level outcome of one run of the `__main__` block. -/
inductive Outcome where
  | gateExit : Outcome
  | suppressed : Outcome
  | failed : PyExc → Outcome
  | delivered : ℚ → Outcome

/-- Line 85–94: `calc_pnl` given the fetched current price `cur`
(the network fetch of `get_naver_current_price` is the caller's
parameter here): `value = cur * qty`, `cost = avg * qty`,
`pl = value - cost`, `pl_pct = (cur / avg - 1.0) * 100.0`, where the
division uses Python's `/`. -/
def calc_pnl (cur avg : ℚ) (qty : ℤ) : Except PyExc (ℚ × ℚ × ℚ × ℚ) :=
  match pydiv cur avg with
  | .error e => .error e
  | .ok r => .ok (cur, cur * (qty : ℚ), cur * (qty : ℚ) - avg * (qty : ℚ), (r - 1) * 100)

/-- The `__main__` block (lines 105–181) as a function of the
configuration, the current KST weekday/time, and the results of the
external collaborators, in the exact order the script consults them:
market-hours gate (111–112), the three market fetches (117–119), the
premium computation (120–121), the threshold gate (124–125), the two
holdings-price fetches inside `calc_pnl` (128–129), then the single
`send_telegram` call (181).  Message composition itself is pure and
cannot fail; `delivered` carries the kimchi premium that was alerted on. -/
def runMain (env : Env) (weekday : ℕ) (t : Tod)
    (fUsdkrw fDomG fIntlOz : Except PyExc ℚ)
    (fCur411060 fCur091160 : Except PyExc ℚ)
    (fSend : Except PyExc Unit) : Outcome :=
  if !env.forceRun && !(is_korean_market_hours weekday t) then .gateExit
  else match fUsdkrw with
  | .error e => .failed e
  | .ok usdkrw => match fDomG with
    | .error e => .failed e
    | .ok dom_g => match fIntlOz with
      | .error e => .failed e
      | .ok intl_usd_oz =>
        match kimchiComputation dom_g intl_usd_oz usdkrw with
        | .error e => .failed e
        | .ok kimchi =>
          if !env.testMessage && decide (|kimchi| < env.threshold) then .suppressed
          else match fCur411060 with
          | .error e => .failed e
          | .ok _ => match fCur091160 with
            | .error e => .failed e
            | .ok _ => match fSend with
              | .error e => .failed e
              | .ok _ => .delivered kimchi

/-!
## Regular-expression layer

`num_from` (lines 28–32) and the inlined search of
`get_naver_current_price` (lines 44–49) call `re.search` with four
concrete patterns.  `RE` covers exactly the constructs those patterns
use; `reMatch` enumerates matches in Python's backtracking priority
order (alternation left-first, greedy repetition first), and `reSearch`
scans starting positions left to right, as `re.search` does.  The
`re.DOTALL` flag of line 29 only changes the meaning of the `.`
metacharacter, which none of the patterns contain.
-/

/-- Regular-expression syntax used by the script's patterns: empty
string, single-character class, concatenation, alternation (left
preferred) and greedy Kleene star. -/
inductive RE where
  | eps : RE
  | pred : (Char → Bool) → RE
  | cat : RE → RE → RE
  | alt : RE → RE → RE
  | star : RE → RE

/-- Structural size of a regular expression, used to compute a
sufficient fuel for `reMatch`. -/
def sizeRE : RE → ℕ
  | .eps => 1
  | .pred _ => 1
  | .cat a b => sizeRE a + sizeRE b + 1
  | .alt a b => sizeRE a + sizeRE b + 1
  | .star a => sizeRE a + 1

/-- All ways `r` can match a prefix of `s`, as (consumed, rest) pairs in
Python's backtracking priority order: alternation tries the left branch
first and the greedy star tries the longest repetition first (skipping
empty-progress iterations, as Python does).  `fuel` bounds the recursion
depth; `sizeRE r + s.length + 1` is always sufficient. -/
def reMatch : ℕ → RE → List Char → List (List Char × List Char)
  | 0, _, _ => []
  | fuel + 1, re, s =>
    match re with
    | .eps => [([], s)]
    | .pred p =>
      match s with
      | [] => []
      | c :: cs => if p c then [([c], cs)] else []
    | .cat a b =>
      (reMatch fuel a s).flatMap fun m =>
        (reMatch fuel b m.2).map fun n => (m.1 ++ n.1, n.2)
    | .alt a b => reMatch fuel a s ++ reMatch fuel b s
    | .star a =>
      ((reMatch fuel a s).flatMap fun m =>
        if m.1.isEmpty then []
        else (reMatch fuel (.star a) m.2).map fun n => (m.1 ++ n.1, n.2))
      ++ [([], s)]

/-- A search pattern of the script, split around its single capture
group: every pattern in alert.py has the shape
`pre (grp) post` with exactly one group. -/
structure Pat where
  pre : RE
  grp : RE
  post : RE

/-- The highest-priority match of the pattern starting exactly at the
head of `s`, returning the text consumed by the capture group, as
Python's backtracking engine would produce it at a fixed starting
position. -/
def matchAt (p : Pat) (s : List Char) : Option (List Char) :=
  (((reMatch (sizeRE p.pre + s.length + 1) p.pre s).flatMap fun m1 =>
    ((reMatch (sizeRE p.grp + s.length + 1) p.grp m1.2).flatMap fun m2 =>
      (reMatch (sizeRE p.post + s.length + 1) p.post m2.2).map fun _ => m2.1))).head?

/-- `re.search`: try starting positions left to right and return the
capture of the first position that admits a match. -/
def reSearch (p : Pat) : List Char → Option (List Char)
  | [] => matchAt p []
  | c :: rest =>
    match matchAt p (c :: rest) with
    | some cap => some cap
    | none => reSearch p rest

/-- Character class `[0-9]`. -/
def digitRE : RE := .pred Char.isDigit

/-- Two digits `[0-9]{2}`. -/
def d2 : RE := .cat digitRE digitRE

/-- Three digits `[0-9]{3}`. -/
def d3 : RE := .cat digitRE d2

/-- Greedy `[0-9]{1,3}`: three digits preferred, then two, then one. -/
def int13 : RE := .alt d3 (.alt d2 digitRE)

/-- `(?:,[0-9]{3})*`. -/
def commaGroups : RE := .star (.cat (.pred fun c => c == ',') d3)

/-- `[0-9]{1,3}(?:,[0-9]{3})*`, the capture of line 46. -/
def numCore : RE := .cat int13 commaGroups

/-- Greedy `(?:\.[0-9]+)?`. -/
def fracTail : RE :=
  .alt (.cat (.pred fun c => c == '.') (.cat digitRE (.star digitRE))) .eps

/-- `[0-9]{1,3}(?:,[0-9]{3})*(?:\.[0-9]+)?`, the capture of lines
55, 60 and 65. -/
def numFrac : RE := .cat numCore fracTail

/-- Python's `\s` on the ASCII whitespace characters. -/
def isPySpace (c : Char) : Bool :=
  c == ' ' || c == '\t' || c == '\n' || c == '\r' || c == '\x0b' || c == '\x0c'

/-- `\s*`. -/
def ws : RE := .star (.pred isPySpace)

/-- Literal string. -/
def lit (cs : List Char) : RE :=
  cs.foldr (fun c r => .cat (.pred fun x => x == c) r) .eps

/-- Line 46: `현재가\s*([0-9]{1,3}(?:,[0-9]{3})*)`. -/
def patNaverPrice : Pat := ⟨.cat (lit "현재가".toList) ws, numCore, .eps⟩

/-- Line 55: `([0-9]{1,3}(?:,[0-9]{3})*(?:\.[0-9]+)?)`. -/
def patFx : Pat := ⟨.eps, numFrac, .eps⟩

/-- Line 60: the FX number pattern followed by `\s*원/g`. -/
def patDomGold : Pat := ⟨.eps, numFrac, .cat ws (lit "원/g".toList)⟩

/-- Line 65: the FX number pattern followed by `\s*USD/OZS`. -/
def patIntlGold : Pat := ⟨.eps, numFrac, .cat ws (lit "USD/OZS".toList)⟩

/-- Typed extraction failures of the spec's §7 taxonomy: `num_from`
raises `ValueError("number not found")` on a failed search (NotFound)
and `float()` raises `ValueError` on non-numeric content (Malformed). -/
inductive ExtractionError where
  | notFound : ExtractionError
  | malformed : ExtractionError
deriving DecidableEq, Repr

/-- Line 32's `.replace(",", "")`: strip the thousands separators. -/
def stripCommas (cs : List Char) : List Char :=
  cs.filter fun c => !(c == ',')

/-- Numeric value of the character `c` as a decimal digit. -/
def digitVal (c : Char) : ℕ := c.toNat - 48

/-- Value of a list of decimal digit characters, most significant first. -/
def digitsToNat (cs : List Char) : ℕ :=
  cs.foldl (fun a c => 10 * a + digitVal c) 0

/-- Split a string at its first `.`, returning the prefix and, when a
dot is present, the rest. -/
def splitAtDot : List Char → List Char × Option (List Char)
  | [] => ([], none)
  | c :: rest =>
    if c == '.' then ([], some rest)
    else
      let r := splitAtDot rest
      (c :: r.1, r.2)

/-- Python's `float()` on the unsigned decimal literals reachable from
the script's captures: an optional integer part and an optional
fractional part around at most one dot, at least one digit in total;
anything else raises `ValueError` (modelled as `none`). -/
def parseFloat (cs : List Char) : Option ℚ :=
  match splitAtDot cs with
  | (ip, none) =>
    if ip.isEmpty then none
    else if ip.all Char.isDigit then some (digitsToNat ip : ℚ)
    else none
  | (ip, some fp) =>
    if ip.isEmpty && fp.isEmpty then none
    else if ip.all Char.isDigit && fp.all Char.isDigit then
      some ((digitsToNat ip : ℚ) + (digitsToNat fp : ℚ) / (10 : ℚ) ^ fp.length)
    else none

/-- Lines 28–32: `num_from(text, pattern)` — search, then
`float(m.group(1).replace(",", ""))`; raises `ValueError` (NotFound)
when the search fails.  The inlined search of
`get_naver_current_price` (lines 44–49) has the same shape with
`patNaverPrice`. -/
def num_from (text : List Char) (p : Pat) : Except ExtractionError ℚ :=
  match reSearch p text with
  | none => .error .notFound
  | some cap =>
    match parseFloat (stripCommas cap) with
    | none => .error .malformed
    | some v => .ok v

/-- Modelled from the spec: the Numeric Extractor of §4.1 applied to an
ordered `LocatorRule` chain (the chain/fallback form exists only in the
repository's other variants, not in `src/alert.py`, whose adapters each
pass a single rule): rules are tried in order and the first rule whose
search produces a match wins, its capture being parsed exactly as
`num_from` parses it; an empty or fully unmatched chain is NotFound. -/
def extract (text : List Char) : List Pat → Except ExtractionError ℚ
  | [] => .error .notFound
  | p :: rest =>
    match reSearch p text with
    | some _ => num_from text p
    | none => extract text rest

/-!
## Grouped decimal strings

Abstract form of the strings the capture groups can produce: a first
group of one to three digits, further groups of exactly three digits
each preceded by a comma, and an optional fractional part.  `render`
produces the concrete string, `value` its exact numeric value.
-/

/-- Decimal digit character of `d` (callers keep `d < 10`). -/
def digitChar : ℕ → Char
  | 0 => '0'
  | 1 => '1'
  | 2 => '2'
  | 3 => '3'
  | 4 => '4'
  | 5 => '5'
  | 6 => '6'
  | 7 => '7'
  | 8 => '8'
  | _ => '9'

/-- Render a digit group. -/
def renderGroup (ds : List ℕ) : List Char := ds.map digitChar

/-- Render the comma-separated trailing groups. -/
def renderRest : List (List ℕ) → List Char
  | [] => []
  | g :: gs => ',' :: renderGroup g ++ renderRest gs

/-- Concatenate the trailing groups' digits. -/
def concatRest : List (List ℕ) → List ℕ
  | [] => []
  | g :: gs => g ++ concatRest gs

/-- A decimal string with thousands-grouping, in abstract form. -/
structure GroupedDecimal where
  firstGroup : List ℕ
  restGroups : List (List ℕ)
  fracDigits : List ℕ

/-- Well-formedness: the first group has one to three digits, every
further group exactly three, and all digits are below ten. -/
def GroupedDecimal.WF (g : GroupedDecimal) : Prop :=
  1 ≤ g.firstGroup.length ∧ g.firstGroup.length ≤ 3 ∧
  (∀ d ∈ g.firstGroup, d < 10) ∧
  (∀ grp ∈ g.restGroups, grp.length = 3 ∧ ∀ d ∈ grp, d < 10) ∧
  (∀ d ∈ g.fracDigits, d < 10)

instance (g : GroupedDecimal) : Decidable g.WF := by
  unfold GroupedDecimal.WF; infer_instance

/-- The concrete text of a grouped decimal. -/
def GroupedDecimal.render (g : GroupedDecimal) : List Char :=
  renderGroup g.firstGroup ++ renderRest g.restGroups ++
    (if g.fracDigits.isEmpty then [] else '.' :: renderGroup g.fracDigits)

/-- Value of a digit list, most significant first. -/
def natOfDigits (ds : List ℕ) : ℕ :=
  ds.foldl (fun a d => 10 * a + d) 0

/-- The exact numeric value of a grouped decimal. -/
def GroupedDecimal.value (g : GroupedDecimal) : ℚ :=
  (natOfDigits (g.firstGroup ++ concatRest g.restGroups) : ℚ) +
    (natOfDigits g.fracDigits : ℚ) / (10 : ℚ) ^ g.fracDigits.length

end Alert

/-!
## Helper lemmas
-/

namespace Alert

theorem OZ_TO_G_ne_zero : OZ_TO_G ≠ 0 := by norm_num [OZ_TO_G]

theorem pydiv_ok (a b : ℚ) (h : b ≠ 0) : pydiv a b = .ok (a / b) := by
  simp [pydiv, h]

theorem kimchiOf_ok (dG intl_krw_g : ℚ) (h : intl_krw_g ≠ 0) :
    kimchiOf dG intl_krw_g = .ok (kimchiValue dG intl_krw_g) := by
  simp [kimchiOf, pydiv, h, kimchiValue]

theorem kimchiComputation_ok (dG i u : ℚ) (h : impliedKrwPerG i u ≠ 0) :
    kimchiComputation dG i u = .ok (kimchiValue dG (impliedKrwPerG i u)) := by
  simp [kimchiComputation, kimchiOf_ok _ _ h]

theorem implied_scenario_ne_zero : impliedKrwPerG 2600 1350 ≠ 0 := by
  norm_num [impliedKrwPerG, OZ_TO_G]

theorem kimchi_scenario_lower :
    (2405/100 : ℚ) < kimchiValue 140000 (impliedKrwPerG 2600 1350) := by
  norm_num [kimchiValue, impliedKrwPerG, OZ_TO_G]

theorem kimchi_scenario_threshold :
    (3/2 : ℚ) ≤ |kimchiValue 140000 (impliedKrwPerG 2600 1350)| := by
  have h := kimchi_scenario_lower
  rw [abs_of_pos (by linarith)]
  linarith

theorem market_hours_monday_ten : is_korean_market_hours 0 ⟨10, 0, 0, 0⟩ = true := by
  decide

theorem avg_cost_411060_pos : (0 : ℚ) < 37510 := by norm_num

end Alert

namespace Alert

/-!
## Claim theorems: premium arithmetic and run control
-/

/-- C1 (counterexample): at FX = 1350, international gold = 2600 USD/oz,
the spec's stated numbers are wrong: the internationally-implied price
`2600 * 1350 / 31.1034768` is more than 5 KRW/g below the spec's
≈112,855 (it is ≈112,849.12), and the premium at domestic gold
140,000 KRW/g exceeds 24.05% by more than 0.005, so at the spec's own
two-decimal display precision it is +24.06%, not +24.05%. -/
theorem kimchi_scenario_spec_values_false :
    (5 : ℚ) < 112855 - impliedKrwPerG 2600 1350 ∧
    (1/200 : ℚ) < kimchiValue 140000 (impliedKrwPerG 2600 1350) - 2405/100 := by
  constructor
  · norm_num [impliedKrwPerG, OZ_TO_G]
  · norm_num [kimchiValue, impliedKrwPerG, OZ_TO_G]

/-- C1 (amended): the premium computation follows the spec formula
(implied = intl_usd_per_oz * usdkrw / 31.1034768, premium =
(domestic - implied) / implied * 100), and for FX = 1350.00, domestic
gold = 140,000 KRW/g, international gold = 2600.00 USD/oz the implied
price is approximately 112,849 KRW/g (not 112,855) and the premium is
approximately +24.06% (not +24.05%); with threshold 1.5 the alert
fires and the run delivers. -/
theorem kimchi_scenario_corrected :
    impliedKrwPerG 2600 1350 = 2600 * 1350 / OZ_TO_G ∧
    (112849 : ℚ) < impliedKrwPerG 2600 1350 ∧
    impliedKrwPerG 2600 1350 < 112850 ∧
    kimchiComputation 140000 2600 1350 =
      .ok (kimchiValue 140000 (impliedKrwPerG 2600 1350)) ∧
    (2405/100 + 1/200 : ℚ) < kimchiValue 140000 (impliedKrwPerG 2600 1350) ∧
    kimchiValue 140000 (impliedKrwPerG 2600 1350) < 2406/100 ∧
    (3/2 : ℚ) ≤ |kimchiValue 140000 (impliedKrwPerG 2600 1350)| ∧
    runMain ⟨false, false, 3/2⟩ 0 ⟨10, 0, 0, 0⟩ (.ok 1350) (.ok 140000) (.ok 2600)
        (.ok 37000) (.ok 80000) (.ok ()) =
      .delivered (kimchiValue 140000 (impliedKrwPerG 2600 1350)) := by
  refine ⟨rfl, ?_, ?_, kimchiComputation_ok _ _ _ implied_scenario_ne_zero, ?_, ?_,
    kimchi_scenario_threshold, ?_⟩
  · norm_num [impliedKrwPerG, OZ_TO_G]
  · norm_num [impliedKrwPerG, OZ_TO_G]
  · norm_num [kimchiValue, impliedKrwPerG, OZ_TO_G]
  · norm_num [kimchiValue, impliedKrwPerG, OZ_TO_G]
  · have hns : ¬(|kimchiValue 140000 (impliedKrwPerG 2600 1350)| < (3/2 : ℚ)) :=
      not_lt.mpr kimchi_scenario_threshold
    simp [runMain, market_hours_monday_ten,
      kimchiComputation_ok _ _ _ implied_scenario_ne_zero, hns]

/-- C2: with the market-hours gate passed and every fetch and the
delivery succeeding, the run delivers the alert iff the premium's
absolute percentage reaches the threshold or the TEST_MESSAGE override
is set; when neither holds, it ends as the clean no-op
`raise SystemExit(0)` of line 125, sending nothing. -/
theorem alert_sent_iff_threshold_or_override
    (env : Env) (wd : ℕ) (t : Tod) (u dG i p1 p2 : ℚ)
    (hgate : env.forceRun = true ∨ is_korean_market_hours wd t = true)
    (himpl : impliedKrwPerG i u ≠ 0) :
    (runMain env wd t (.ok u) (.ok dG) (.ok i) (.ok p1) (.ok p2) (.ok ()) =
        .delivered (kimchiValue dG (impliedKrwPerG i u)) ↔
      (env.testMessage = true ∨ env.threshold ≤ |kimchiValue dG (impliedKrwPerG i u)|)) ∧
    ((env.testMessage = false ∧ |kimchiValue dG (impliedKrwPerG i u)| < env.threshold) →
      runMain env wd t (.ok u) (.ok dG) (.ok i) (.ok p1) (.ok p2) (.ok ()) =
        .suppressed) := by
  have hg : (!env.forceRun && !(is_korean_market_hours wd t)) = false := by
    rcases hgate with h | h <;> simp [h]
  by_cases htm : env.testMessage
  · by_cases hk : |kimchiValue dG (impliedKrwPerG i u)| < env.threshold <;>
      simp [runMain, hg, kimchiComputation_ok _ _ _ himpl, htm, hk]
  · by_cases hk : |kimchiValue dG (impliedKrwPerG i u)| < env.threshold
    · simp [runMain, hg, kimchiComputation_ok _ _ _ himpl, htm, hk, not_le.mpr hk]
    · simp [runMain, hg, kimchiComputation_ok _ _ _ himpl, htm, hk, not_lt.mp hk]

/-- C2 witness: the end-to-end scenario numbers with threshold 1.5 and
no override deliver the alert. -/
theorem alert_sent_iff_threshold_or_override_witness :
    runMain ⟨false, false, 3/2⟩ 0 ⟨10, 0, 0, 0⟩ (.ok 1350) (.ok 140000) (.ok 2600)
        (.ok 37000) (.ok 80000) (.ok ()) =
      .delivered (kimchiValue 140000 (impliedKrwPerG 2600 1350)) :=
  ((alert_sent_iff_threshold_or_override ⟨false, false, 3/2⟩ 0 ⟨10, 0, 0, 0⟩
      1350 140000 2600 37000 80000 (Or.inr market_hours_monday_ten)
      implied_scenario_ne_zero).1).mpr (Or.inr kimchi_scenario_threshold)

end Alert

namespace Alert

/-- C3: the market-hours gate is open exactly on weekdays (Python
weekday 0–4) between 09:00 and 15:30 inclusive (at whole-minute
timestamps, `540 ≤ 60h + m ≤ 930`); any `weekday ≥ 5` (Saturday = 5,
Sunday = 6) is closed; 08:59 and 15:31 on a weekday are closed while
the boundaries 09:00 and 15:30 are open; and with the gate closed and
no FORCE_RUN flag the run is the clean no-op `raise SystemExit(0)` of
line 112. -/
theorem market_hours_gate_spec :
    (∀ wd h m, m ≤ 59 → (is_korean_market_hours wd ⟨h, m, 0, 0⟩ = true ↔
      (wd < 5 ∧ 9 * 60 ≤ h * 60 + m ∧ h * 60 + m ≤ 15 * 60 + 30))) ∧
    (∀ wd t, 5 ≤ wd → is_korean_market_hours wd t = false) ∧
    (∀ wd, wd < 5 →
      is_korean_market_hours wd ⟨8, 59, 0, 0⟩ = false ∧
      is_korean_market_hours wd ⟨15, 31, 0, 0⟩ = false ∧
      is_korean_market_hours wd ⟨9, 0, 0, 0⟩ = true ∧
      is_korean_market_hours wd ⟨15, 30, 0, 0⟩ = true) ∧
    (∀ (env : Env) wd t f1 f2 f3 f4 f5 s, env.forceRun = false →
      is_korean_market_hours wd t = false →
      runMain env wd t f1 f2 f3 f4 f5 s = .gateExit) := by
  have key : ∀ wd h m, m ≤ 59 → (is_korean_market_hours wd ⟨h, m, 0, 0⟩ = true ↔
      (wd < 5 ∧ 9 * 60 ≤ h * 60 + m ∧ h * 60 + m ≤ 15 * 60 + 30)) := by
    intro wd h m hm
    by_cases hw : 5 ≤ wd
    · simp [is_korean_market_hours, hw]
    · simp only [is_korean_market_hours, hw, if_false, todLE, Bool.and_eq_true,
        decide_eq_true_eq]
      split_ifs <;> simp_all <;> omega
  refine ⟨key, ?_, ?_, ?_⟩
  · intro wd t hw
    simp [is_korean_market_hours, hw]
  · intro wd hw
    refine ⟨?_, ?_, ?_, ?_⟩ <;>
      · first
        | (rw [key _ _ _ (by omega)]; omega)
        | (rw [Bool.eq_false_iff, Ne, key _ _ _ (by omega)]; omega)
  · intro env wd t f1 f2 f3 f4 f5 s hforce hclosed
    simp [runMain, hforce, hclosed]

/-- C3 witness: Friday 09:00 is open, and Saturday 10:00 with
FORCE_RUN unset is the clean gate no-op. -/
theorem market_hours_gate_spec_witness :
    is_korean_market_hours 4 ⟨9, 0, 0, 0⟩ = true ∧
    runMain ⟨false, true, 3/2⟩ 5 ⟨10, 0, 0, 0⟩ (.ok 1) (.ok 1) (.ok 1) (.ok 1)
      (.ok 1) (.ok ()) = .gateExit :=
  ⟨(market_hours_gate_spec.2.2.1 4 (by decide)).2.2.2,
   market_hours_gate_spec.2.2.2 ⟨false, true, 3/2⟩ 5 ⟨10, 0, 0, 0⟩ _ _ _ _ _ _
     rfl (by decide)⟩

end Alert

namespace Alert

/-- C5 (counterexample): with the reference price zero (international
gold fetched as 0, FX 1350, domestic gold 140,000), the script's inline
premium computation (line 121) raises Python's untyped
`ZeroDivisionError` and the run aborts as a process failure — it does
not return the spec's typed `PremiumError::ZeroReference` modeled
failure, which is what the spec's own Premium Engine would produce on
the same input. -/
theorem zero_reference_division_error_cex :
    kimchiComputation 140000 0 1350 = .error PyExc.zeroDivisionError ∧
    compute_premium 140000 (impliedKrwPerG 0 1350) =
      .error PremiumError.zeroReference ∧
    runMain ⟨false, false, 3/2⟩ 0 ⟨10, 0, 0, 0⟩ (.ok 1350) (.ok 140000) (.ok 0)
      (.ok 37000) (.ok 80000) (.ok ()) = .failed PyExc.zeroDivisionError := by
  have h0 : impliedKrwPerG 0 1350 = 0 := by norm_num [impliedKrwPerG]
  refine ⟨?_, ?_, ?_⟩
  · simp [kimchiComputation, h0, kimchiOf, pydiv]
  · simp [compute_premium, h0]
  · simp [runMain, market_hours_monday_ten, kimchiComputation, h0, kimchiOf, pydiv]

/-- C5 (amended): for every observed value, a zero reference makes the
script's inline premium computation raise `ZeroDivisionError`, an
untyped Python exception that propagates and aborts the run with no
alert sent; no typed `ZeroReference` failure value exists anywhere in
the code (the typed behaviour exists only in the spec-modelled
`compute_premium`). -/
theorem zero_reference_crashes_run (dG usd : ℚ) (env : Env) (wd : ℕ) (t : Tod)
    (p1 p2 : Except PyExc ℚ) (snd : Except PyExc Unit)
    (hgate : env.forceRun = true ∨ is_korean_market_hours wd t = true) :
    kimchiComputation dG 0 usd = .error PyExc.zeroDivisionError ∧
    compute_premium dG 0 = .error PremiumError.zeroReference ∧
    runMain env wd t (.ok usd) (.ok dG) (.ok 0) p1 p2 snd =
      .failed PyExc.zeroDivisionError := by
  have h0 : impliedKrwPerG 0 usd = 0 := by simp [impliedKrwPerG]
  have hg : (!env.forceRun && !(is_korean_market_hours wd t)) = false := by
    rcases hgate with h | h <;> simp [h]
  refine ⟨?_, ?_, ?_⟩
  · simp [kimchiComputation, h0, kimchiOf, pydiv]
  · simp [compute_premium]
  · simp [runMain, hg, kimchiComputation, h0, kimchiOf, pydiv]

/-- C5 amended-claim witness: the concrete zero-reference run aborts
with the division error. -/
theorem zero_reference_crashes_run_witness :
    runMain ⟨true, false, 3/2⟩ 6 ⟨0, 0, 0, 0⟩ (.ok 1350) (.ok 140000) (.ok 0)
      (.ok 1) (.ok 1) (.ok ()) = .failed PyExc.zeroDivisionError :=
  (zero_reference_crashes_run 140000 1350 ⟨true, false, 3/2⟩ 6 ⟨0, 0, 0, 0⟩
    (.ok 1) (.ok 1) (.ok ()) (Or.inl rfl)).2.2

/-- C8: once past the market-hours gate, a failure of any single
source fetch makes the whole run abort with that propagated error —
never a delivered alert.  The three market fetches (lines 117–119)
abort unconditionally; the two holdings fetches (lines 128–129) and
the delivery call (line 181) are only reached when the threshold gate
passes, and abort the run from there. -/
theorem fetch_failure_fails_run (env : Env) (wd : ℕ) (t : Tod) (e : PyExc)
    (u dG i : ℚ)
    (hgate : env.forceRun = true ∨ is_korean_market_hours wd t = true) :
    (∀ f2 f3 f4 f5 s, runMain env wd t (.error e) f2 f3 f4 f5 s = .failed e) ∧
    (∀ f3 f4 f5 s, runMain env wd t (.ok u) (.error e) f3 f4 f5 s = .failed e) ∧
    (∀ f4 f5 s, runMain env wd t (.ok u) (.ok dG) (.error e) f4 f5 s = .failed e) ∧
    (impliedKrwPerG i u ≠ 0 →
      (env.testMessage = true ∨
        env.threshold ≤ |kimchiValue dG (impliedKrwPerG i u)|) →
      (∀ f5 s, runMain env wd t (.ok u) (.ok dG) (.ok i) (.error e) f5 s =
        .failed e) ∧
      (∀ f4 s, runMain env wd t (.ok u) (.ok dG) (.ok i) (.ok f4) (.error e) s =
        .failed e) ∧
      (∀ f4 f5, runMain env wd t (.ok u) (.ok dG) (.ok i) (.ok f4) (.ok f5)
        (.error e) = .failed e)) := by
  have hg : (!env.forceRun && !(is_korean_market_hours wd t)) = false := by
    rcases hgate with h | h <;> simp [h]
  refine ⟨?_, ?_, ?_, ?_⟩
  · intro f2 f3 f4 f5 s
    simp [runMain, hg]
  · intro f3 f4 f5 s
    simp [runMain, hg]
  · intro f4 f5 s
    simp [runMain, hg]
  · intro himpl hsend
    have hns : (!env.testMessage &&
        decide (|kimchiValue dG (impliedKrwPerG i u)| < env.threshold)) = false := by
      rcases hsend with h | h
      · simp [h]
      · simp [not_lt.mpr h]
    refine ⟨?_, ?_, ?_⟩ <;> intro a b <;>
      simp [runMain, hg, kimchiComputation_ok _ _ _ himpl, hns]

/-- C8 witness: a failing FX fetch aborts the run, and with the
override set, a failing delivery aborts the run after all fetches. -/
theorem fetch_failure_fails_run_witness :
    runMain ⟨false, true, 3/2⟩ 0 ⟨10, 0, 0, 0⟩ (.error .requestsError) (.ok 140000)
      (.ok 2600) (.ok 1) (.ok 1) (.ok ()) = .failed PyExc.requestsError ∧
    runMain ⟨false, true, 3/2⟩ 0 ⟨10, 0, 0, 0⟩ (.ok 1350) (.ok 140000) (.ok 2600)
      (.ok 1) (.ok 1) (.error .requestsError) = .failed PyExc.requestsError :=
  ⟨(fetch_failure_fails_run ⟨false, true, 3/2⟩ 0 ⟨10, 0, 0, 0⟩ .requestsError
      1350 140000 2600 (Or.inr market_hours_monday_ten)).1 _ _ _ _ _,
   ((fetch_failure_fails_run ⟨false, true, 3/2⟩ 0 ⟨10, 0, 0, 0⟩ .requestsError
      1350 140000 2600 (Or.inr market_hours_monday_ten)).2.2.2
      implied_scenario_ne_zero (Or.inl rfl)).2.2 _ _⟩

/-- C10: the two profit-and-loss measures of `calc_pnl` are mutually
consistent: for every fetched current price, average cost `avg > 0`
and quantity `qty > 0`, the call returns
`(cur, value, pl, pl_pct)` with `value = cur * qty` and
`pl = (pl_pct / 100) * avg * qty`. -/
theorem calc_pnl_consistency (cur avg : ℚ) (qty : ℤ)
    (havg : 0 < avg) (hqty : 0 < qty) :
    ∃ value pl pl_pct,
      calc_pnl cur avg qty = .ok (cur, value, pl, pl_pct) ∧
      value = cur * (qty : ℚ) ∧
      pl = pl_pct / 100 * avg * (qty : ℚ) := by
  have h : avg ≠ 0 := ne_of_gt havg
  refine ⟨cur * (qty : ℚ), cur * (qty : ℚ) - avg * (qty : ℚ),
    (cur / avg - 1) * 100, ?_, rfl, ?_⟩
  · simp [calc_pnl, pydiv, h]
  · field_simp
    ring

/-- C10 witness: the 411060 holding (average cost 37,510, quantity 118)
at a current price of 40,000. -/
theorem calc_pnl_consistency_witness :
    ∃ value pl pl_pct,
      calc_pnl 40000 37510 118 = .ok (40000, value, pl, pl_pct) ∧
      value = 40000 * ((118 : ℤ) : ℚ) ∧
      pl = pl_pct / 100 * 37510 * ((118 : ℤ) : ℚ) :=
  calc_pnl_consistency 40000 37510 118 avg_cost_411060_pos (by decide)

end Alert

namespace Alert

/-!
## Claim theorems: extraction layer
-/

/-- C6: for every input text and rule chain in which no rule's search
matches, the extractor fails with the NotFound error (the
`ValueError("number not found")` of line 31) and never returns a
numeric value. -/
theorem extractor_notFound_when_no_rule_matches (text : List Char)
    (chain : List Pat) (h : ∀ p ∈ chain, reSearch p text = none) :
    extract text chain = .error .notFound := by
  induction chain with
  | nil => rfl
  | cons p rest ih =>
    have hp := h p (List.mem_cons_self p rest)
    rw [extract, hp]
    exact ih fun q hq => h q (List.mem_cons_of_mem _ hq)

/-- C6 witness: a digit-free text fails both the FX rule and the
domestic-gold rule with NotFound. -/
theorem extractor_notFound_when_no_rule_matches_witness :
    extract "abc def".toList [patFx, patDomGold] = .error .notFound :=
  extractor_notFound_when_no_rule_matches _ _ (by decide)

/-- C7: rules are tried in their given order and the first rule whose
search matches wins: when rule 1 has no match and rule 2 matches, the
extractor returns rule 2's value, and whenever rule 1 matches the
extractor returns rule 1's value regardless of rule 2. -/
theorem rule_chain_first_match_wins (text : List Char) (p1 p2 : Pat) :
    (reSearch p1 text = none → (reSearch p2 text).isSome = true →
      extract text [p1, p2] = num_from text p2) ∧
    ((reSearch p1 text).isSome = true →
      extract text [p1, p2] = num_from text p1) := by
  constructor
  · intro h1 h2
    rw [extract, h1]
    cases hh : reSearch p2 text with
    | none => rw [hh] at h2; cases h2
    | some c => rw [extract, hh]
  · intro h1
    cases hh : reSearch p1 text with
    | none => rw [hh] at h1; cases h1
    | some c => rw [extract, hh]

/-- C7 witness: with the domestic-gold rule ordered first and the bare
FX number rule second, a text without the 원/g suffix falls through to
rule 2, and a text with it is answered by rule 1. -/
theorem rule_chain_first_match_wins_witness :
    extract "1,234 krw".toList [patDomGold, patFx] =
      num_from "1,234 krw".toList patFx ∧
    extract "1,234 원/g".toList [patDomGold, patFx] =
      num_from "1,234 원/g".toList patDomGold :=
  ⟨(rule_chain_first_match_wins "1,234 krw".toList patDomGold patFx).1
      (by decide) (by decide),
   (rule_chain_first_match_wins "1,234 원/g".toList patDomGold patFx).2
      (by decide)⟩

/-- C9: `re.search` scans starting positions left to right, so whenever
a position `i` admits a match and no earlier position does, the search
returns the capture at `i`: the extractor always uses the first
occurrence in text order and never a later one. -/
theorem extractor_returns_leftmost_match (p : Pat) (text : List Char) (i : ℕ)
    (cap : List Char)
    (hnone : ∀ j, j < i → matchAt p (text.drop j) = none)
    (hmatch : matchAt p (text.drop i) = some cap) :
    reSearch p text = some cap := by
  induction text generalizing i with
  | nil =>
    cases i with
    | zero => simpa [reSearch] using hmatch
    | succ n =>
      have h0 := hnone 0 (Nat.succ_pos n)
      simp only [List.drop_nil] at h0 hmatch
      rw [h0] at hmatch
      cases hmatch
  | cons c rest ih =>
    cases i with
    | zero =>
      simp only [List.drop_zero] at hmatch
      simp [reSearch, hmatch]
    | succ n =>
      have h0 := hnone 0 (Nat.succ_pos n)
      simp only [List.drop_zero] at h0
      rw [reSearch, h0]
      exact ih n
        (fun j hj => by
          have hh := hnone (j + 1) (Nat.succ_lt_succ hj)
          simpa using hh)
        (by simpa using hmatch)

/-- C9 witness: in a text with two number occurrences, the FX rule's
search returns the first one. -/
theorem extractor_returns_leftmost_match_witness :
    reSearch patFx "a 12 34".toList = some "12".toList :=
  extractor_returns_leftmost_match patFx "a 12 34".toList 2 "12".toList
    (by decide) (by decide)

end Alert

namespace Alert

/-!
## Grouped-decimal parsing lemmas for C4
-/

theorem digitChar_val (d : ℕ) (h : d < 10) : digitVal (digitChar d) = d := by
  interval_cases d <;> rfl

theorem digitChar_isDigit (d : ℕ) : (digitChar d).isDigit = true := by
  rcases d with _ | _ | _ | _ | _ | _ | _ | _ | _ | d <;> rfl

theorem digitChar_ne_comma (d : ℕ) : (digitChar d == ',') = false := by
  rcases d with _ | _ | _ | _ | _ | _ | _ | _ | _ | d <;> rfl

theorem digitChar_ne_dot (d : ℕ) : (digitChar d == '.') = false := by
  rcases d with _ | _ | _ | _ | _ | _ | _ | _ | _ | d <;> rfl

theorem renderGroup_append (a b : List ℕ) :
    renderGroup (a ++ b) = renderGroup a ++ renderGroup b :=
  List.map_append _ _ _

theorem stripCommas_append (a b : List Char) :
    stripCommas (a ++ b) = stripCommas a ++ stripCommas b := by
  simp [stripCommas, List.filter_append]

theorem stripCommas_renderGroup (ds : List ℕ) :
    stripCommas (renderGroup ds) = renderGroup ds := by
  apply List.filter_eq_self.mpr
  intro c hc
  obtain ⟨d, _, rfl⟩ := List.mem_map.mp hc
  simp [digitChar_ne_comma]

theorem stripCommas_renderRest (gs : List (List ℕ)) :
    stripCommas (renderRest gs) = renderGroup (concatRest gs) := by
  induction gs with
  | nil => rfl
  | cons g rest ih =>
    have hcm : stripCommas [','] = [] := rfl
    rw [renderRest, stripCommas_append,
      show ((',' : Char) :: renderGroup g) = [','] ++ renderGroup g from rfl,
      stripCommas_append, hcm, List.nil_append, stripCommas_renderGroup, ih,
      concatRest, renderGroup_append]

theorem renderGroup_no_dot (ds : List ℕ) :
    ∀ x ∈ renderGroup ds, (x == '.') = false := by
  intro c hc
  obtain ⟨d, _, rfl⟩ := List.mem_map.mp hc
  exact digitChar_ne_dot d

theorem renderGroup_all_digits (ds : List ℕ) :
    (renderGroup ds).all Char.isDigit = true := by
  rw [List.all_eq_true]
  intro c hc
  obtain ⟨d, _, rfl⟩ := List.mem_map.mp hc
  exact digitChar_isDigit d

theorem digitsToNat_renderGroup_aux (ds : List ℕ) (h : ∀ d ∈ ds, d < 10) :
    ∀ a : ℕ, (renderGroup ds).foldl (fun x c => 10 * x + digitVal c) a =
      ds.foldl (fun x d => 10 * x + d) a := by
  induction ds with
  | nil => intro a; rfl
  | cons d rest ih =>
    intro a
    simp only [renderGroup, List.map_cons, List.foldl_cons]
    rw [digitChar_val d (h d (List.mem_cons_self _ _))]
    exact ih (fun x hx => h x (List.mem_cons_of_mem _ hx)) _

theorem digitsToNat_renderGroup (ds : List ℕ) (h : ∀ d ∈ ds, d < 10) :
    digitsToNat (renderGroup ds) = natOfDigits ds :=
  digitsToNat_renderGroup_aux ds h 0

theorem splitAtDot_no_dot (xs : List Char) (h : ∀ x ∈ xs, (x == '.') = false) :
    splitAtDot xs = (xs, none) := by
  induction xs with
  | nil => rfl
  | cons c rest ih =>
    have hc := h c (List.mem_cons_self _ _)
    have ih2 := ih fun x hx => h x (List.mem_cons_of_mem _ hx)
    simp [splitAtDot, hc, ih2]

theorem splitAtDot_mid (xs fp : List Char) (h : ∀ x ∈ xs, (x == '.') = false) :
    splitAtDot (xs ++ '.' :: fp) = (xs, some fp) := by
  induction xs with
  | nil => simp [splitAtDot]
  | cons c rest ih =>
    have hc := h c (List.mem_cons_self _ _)
    have ih2 := ih fun x hx => h x (List.mem_cons_of_mem _ hx)
    simp [splitAtDot, hc, ih2]

theorem mem_concatRest (gs : List (List ℕ)) (d : ℕ) (hd : d ∈ concatRest gs) :
    ∃ grp ∈ gs, d ∈ grp := by
  induction gs with
  | nil => cases hd
  | cons g rest ih =>
    rcases List.mem_append.mp hd with h | h
    · exact ⟨g, List.mem_cons_self _ _, h⟩
    · obtain ⟨grp, hg, hdg⟩ := ih h
      exact ⟨grp, List.mem_cons_of_mem _ hg, hdg⟩

theorem parse_render (g : GroupedDecimal) (hwf : g.WF) :
    parseFloat (stripCommas g.render) = some g.value := by
  obtain ⟨h1, _h2, h3, h4, h5⟩ := hwf
  have hall : ∀ d ∈ g.firstGroup ++ concatRest g.restGroups, d < 10 := by
    intro d hd
    rcases List.mem_append.mp hd with hd | hd
    · exact h3 d hd
    · obtain ⟨grp, hg, hdg⟩ := mem_concatRest _ _ hd
      exact (h4 grp hg).2 d hdg
  have hne : (renderGroup (g.firstGroup ++ concatRest g.restGroups)).isEmpty
      = false := by
    cases hL : g.firstGroup with
    | nil => rw [hL] at h1; simp at h1
    | cons a as => simp [hL, renderGroup]
  rw [GroupedDecimal.render, stripCommas_append, stripCommas_append,
    stripCommas_renderGroup, stripCommas_renderRest]
  by_cases hfrac : g.fracDigits.isEmpty
  · have hfd : g.fracDigits = [] := by
      cases hc : g.fracDigits with
      | nil => rfl
      | cons a as => rw [hc] at hfrac; simp at hfrac
    rw [hfrac, if_pos rfl]
    rw [show stripCommas ([] : List Char) = [] from rfl, List.append_nil,
      ← renderGroup_append]
    have hsplit := splitAtDot_no_dot _
      (renderGroup_no_dot (g.firstGroup ++ concatRest g.restGroups))
    simp only [parseFloat, hsplit, hne, renderGroup_all_digits, if_true,
      Bool.false_eq_true, if_false]
    rw [digitsToNat_renderGroup _ hall]
    simp [GroupedDecimal.value, hfd, natOfDigits]
  · have hfb : g.fracDigits.isEmpty = false := by
      cases hc : g.fracDigits with
      | nil => rw [hc] at hfrac; simp at hfrac
      | cons a as => simp
    rw [hfb, if_neg (by simp)]
    have hdot : stripCommas ('.' :: renderGroup g.fracDigits) =
        '.' :: renderGroup g.fracDigits := by
      have hrest := stripCommas_renderGroup g.fracDigits
      simp only [stripCommas, List.filter_cons] at hrest ⊢
      rw [hrest]
      rfl
    rw [hdot, ← renderGroup_append]
    have hsplit := splitAtDot_mid _ (renderGroup g.fracDigits)
      (renderGroup_no_dot (g.firstGroup ++ concatRest g.restGroups))
    simp only [parseFloat, hsplit, hne, renderGroup_all_digits,
      Bool.false_and, Bool.and_self, Bool.false_eq_true, if_false, if_true]
    rw [digitsToNat_renderGroup _ hall, digitsToNat_renderGroup _ h5]
    simp [GroupedDecimal.value, renderGroup, List.length_map]

end Alert

namespace Alert

/-- C4: for every valid decimal string with thousands-grouping that
appears as the extractor's capture, `num_from` recovers the exact
numeric value after stripping the grouping commas: whenever the search
returns the rendered grouped decimal as the capture, the extractor
returns its value (e.g. a capture `33,020` parses to `33020`). -/
theorem extractor_recovers_grouped_decimal (g : GroupedDecimal)
    (text : List Char) (p : Pat) (hwf : g.WF)
    (hsearch : reSearch p text = some g.render) :
    num_from text p = .ok g.value := by
  rw [num_from, hsearch]
  simp only [parse_render g hwf]

/-- C4 witness: the spec's example — the capture `33,020` produced by
the Naver current-price pattern parses to exactly 33020. -/
theorem extractor_recovers_grouped_decimal_witness :
    GroupedDecimal.WF ⟨[3, 3], [[0, 2, 0]], []⟩ ∧
    num_from "현재가 33,020원".toList patNaverPrice =
      .ok (GroupedDecimal.value ⟨[3, 3], [[0, 2, 0]], []⟩) :=
  ⟨by decide,
   extractor_recovers_grouped_decimal ⟨[3, 3], [[0, 2, 0]], []⟩
     "현재가 33,020원".toList patNaverPrice (by decide) (by decide)⟩

end Alert
